import Mathlib

/-!
Verification development for the PaddleOCR2Pytorch weight converter
(`converter/ch_ppocr_v5_rec_server_converter.py`, `pytorchocr/base_ocr_v20.py`,
`pytorchocr/modeling/architectures/base_model.py`,
`ppocr/modeling/heads/rec_multi_head.py`).

The Python code is shallowly embedded:

* a tensor is a shape (`List Nat`) together with flat row-major data
  (`List Int`; the converter only copies, transposes and replicates values,
  so the numeric carrier type is irrelevant and exact integers stand in for
  the floating point payload);
* an `OrderedDict` of weights is an association list in insertion order;
* the Python string operations used by the key-renaming rules
  (`str.replace`, `in`, `startswith`, `endswith`, `lower`) are defined over
  `List Char` with Python semantics;
* the per-key loop of `load_paddle_weights` becomes a step function on an
  explicit `LoadState`, folded over the source state dict;
* the distinction between `tensor.copy_(...)` (which writes through to the
  model parameter) and `pytorch_state_dict[key] = value` (which only rebinds
  the local snapshot returned by `state_dict()`, leaving the parameter
  untouched) is modelled by snapshot entries that either alias a parameter
  or hold a replacement tensor.
-/

/-! ## Python string primitives -/

/-- Python `needle in hay` on character lists (substring test). -/
def strContains : List Char → List Char → Bool
  | hay, needle =>
    match hay with
    | [] => needle.isEmpty
    | _ :: t => needle.isPrefixOf hay || strContains t needle

/-- Python `hay.replace(needle, rep, 1)`: replace the first occurrence,
scanning left to right; the string is unchanged when the needle is absent. -/
def replaceFirstL : List Char → List Char → List Char → List Char
  | [], _, _ => []
  | c :: t, needle, rep =>
    if needle.isPrefixOf (c :: t) then rep ++ (c :: t).drop needle.length
    else c :: replaceFirstL t needle rep

/-- Recursion core of Python `hay.replace(needle, rep)`: scan left to right,
replacing each non-overlapping occurrence of a non-empty needle.  The `fuel`
argument makes the recursion structural; each step consumes at least one
character of `hay`, so `hay.length + 1` units of fuel always suffice, and
the fuel-exhausted branch is unreachable for the wrapper below. -/
def replaceAllFuel : Nat → List Char → List Char → List Char → List Char
  | 0, hay, _, _ => hay
  | fuel + 1, hay, needle, rep =>
    match hay with
    | [] => []
    | c :: t =>
      if needle ≠ [] ∧ needle.isPrefixOf (c :: t) then
        rep ++ replaceAllFuel fuel ((c :: t).drop needle.length) needle rep
      else
        c :: replaceAllFuel fuel t needle rep

/-- Python `hay.replace(needle, rep)` for a non-empty needle: replace every
non-overlapping occurrence, scanning left to right. -/
def replaceAllL (hay needle rep : List Char) : List Char :=
  replaceAllFuel (hay.length + 1) hay needle rep

/-- Substring test on `String` (Python `needle in hay`). -/
def sContains (hay needle : String) : Bool := strContains hay.toList needle.toList

/-- Python `hay.replace(needle, rep)`. -/
def sReplaceAll (hay needle rep : String) : String :=
  ⟨replaceAllL hay.toList needle.toList rep.toList⟩

/-- Python `hay.replace(needle, rep, 1)`. -/
def sReplaceFirst (hay needle rep : String) : String :=
  ⟨replaceFirstL hay.toList needle.toList rep.toList⟩

/-- Python `hay.startswith(pre)`. -/
def sStartsWith (hay pre : String) : Bool := pre.toList.isPrefixOf hay.toList

/-- Python `hay.endswith(suf)`. -/
def sEndsWith (hay suf : String) : Bool := suf.toList.isSuffixOf hay.toList

/-- Python `s.lower()` (ASCII identifiers only appear in the weight keys). -/
def sToLower (s : String) : String := ⟨s.toList.map Char.toLower⟩

/-! ## Tensors and state dicts -/

/-- A tensor: a shape together with flat row-major data. -/
structure Tensor where
  shape : List Nat
  data : List Int
deriving DecidableEq, Repr

/-- An `OrderedDict[str, Tensor]` as an association list in insertion order. -/
abbrev StateDict := List (String × Tensor)

/-- Dictionary lookup: the value at the first entry whose key matches. -/
def lookupA {α : Type} : List (String × α) → String → Option α
  | [], _ => none
  | p :: t, k => if p.1 == k then some p.2 else lookupA t k

/-- Overwrite the value at every entry whose key matches (an association-list
update that leaves the key order unchanged, as a Python dict update does). -/
def updateA {α : Type} (l : List (String × α)) (k : String) (v : α) :
    List (String × α) :=
  l.map (fun p => if p.1 == k then (k, v) else p)

/-- Python `d[k] = v` on an `OrderedDict`: update in place when the key is
present, append at the end otherwise. -/
def setA {α : Type} (l : List (String × α)) (k : String) (v : α) :
    List (String × α) :=
  if (lookupA l k).isSome then updateA l k v else l ++ [(k, v)]

/-! ## `del_invalid_state_dict`, current converter and the older copy -/

/-- `PPOCRv5RecConverter.del_invalid_state_dict` of the current converter
(`ch_ppocr_v5_rec_server_converter.py`, lines 206-223): every key is kept
and re-inserted into a fresh `OrderedDict` in iteration order. -/
def del_invalid_state_dict (sd : StateDict) : StateDict :=
  sd.foldl (fun acc p => acc ++ [p]) []

/-- `PPOCRv5RecConverter.del_invalid_state_dict` of the older converter
(`ch_ppocr_v5_rec_server_converter copy.py`, lines 175-199): keys containing
`gtc_head` or starting with `head.before_gtc` are dropped, the rest kept. -/
def del_invalid_state_dict_old (sd : StateDict) : StateDict :=
  sd.foldl
    (fun acc p =>
      if sContains p.1 "gtc_head" then acc
      else if sStartsWith p.1 "head.before_gtc" then acc
      else acc ++ [p])
    []

/-! ## Key renaming in `load_paddle_weights` -/

/-- Outcome of the renaming rules for one Paddle key: the key is skipped
(`continue` without any record), raw-assigned into the state-dict snapshot
(the `.cross_attn.kv.` weight/bias special case), or mapped to a PyTorch key
that proceeds to the membership and shape checks. -/
inductive RenameOutcome where
  | skip : RenameOutcome
  | kvAssign (k : String) : RenameOutcome
  | key (k : String) : RenameOutcome
deriving DecidableEq, Repr

/-- SVTR neck renames (converter lines 421-430), applied after the other
rules to every key that reaches the membership check. -/
def svtrRename (k : String) : String :=
  if sStartsWith k "head.ctc_head.head.encoder_svtr." then
    sReplaceFirst k "head.ctc_head.head.encoder_svtr." "head.ctc_head.neck.svtr."
  else if sStartsWith k "head.ctc_head.head.encoder_svtr_fusion." then
    sReplaceFirst k "head.ctc_head.head.encoder_svtr_fusion."
      "head.ctc_head.neck.svtr_fusion."
  else k

/-- Tail of the decoder-branch renames, from the skip of separate k/v
parameters onward (converter lines 374-417): out-projection and norm-layer
renames. -/
def decoderRenameRest (n : String) : RenameOutcome :=
  if sContains n ".cross_attn.k." || sContains n ".cross_attn.v." then
    RenameOutcome.skip
  else
    let a :=
      if sContains n ".cross_attn.out_proj." then n
      else if sContains n ".cross_attn.out_linear." then
        sReplaceAll n ".cross_attn.out_linear." ".cross_attn.out_proj."
      else if sContains n ".cross_attn.fc." && !sContains n ".mlp.fc" then
        sReplaceAll n ".cross_attn.fc." ".cross_attn.out_proj."
      else n
    let b :=
      if sContains a ".norm1." then a
      else if sContains a ".pre_norm." then sReplaceAll a ".pre_norm." ".norm1."
      else a
    let c :=
      if sContains b ".norm2." then b
      else if sContains b ".post_norm." then sReplaceAll b ".post_norm." ".norm2."
      else b
    let d :=
      if sContains c ".norm3." then c
      else if sContains c ".ffn_norm." then sReplaceAll c ".ffn_norm." ".norm3."
      else c
    RenameOutcome.key d

/-- Decoder-branch renames (converter lines 279-417), for keys starting with
`head.gtc_head.decoder.`. -/
def decoderRename (k : String) : RenameOutcome :=
  let n0 :=
    if sContains k "layers" then
      sReplaceFirst k "head.gtc_head.decoder.layers." "head.nrtr_head_transformer.decoder."
    else
      sReplaceFirst k "head.gtc_head.decoder." "head.nrtr_head_transformer.decoder."
  let n1 :=
    if sContains n0 ".self_attn.qkv." then
      sReplaceAll n0 ".self_attn.qkv." ".self_attn.qkv_proj."
    else if sContains n0 ".self_attn.qkv_linear." then
      sReplaceAll n0 ".self_attn.qkv_linear." ".self_attn.qkv_proj."
    else if sContains n0 ".self_attn.qkv_fc." then
      sReplaceAll n0 ".self_attn.qkv_fc." ".self_attn.qkv_proj."
    else n0
  let n2 :=
    if sContains n1 ".self_attn.out_proj." then n1
    else if sContains n1 ".self_attn.out_linear." then
      sReplaceAll n1 ".self_attn.out_linear." ".self_attn.out_proj."
    else if sContains n1 ".self_attn.fc." && !sContains n1 ".mlp.fc" then
      sReplaceAll n1 ".self_attn.fc." ".self_attn.out_proj."
    else n1
  let n3 :=
    if sContains n2 ".cross_attn.q." then
      sReplaceAll n2 ".cross_attn.q." ".cross_attn.q_proj."
    else if sContains n2 ".cross_attn.q_linear." then
      sReplaceAll n2 ".cross_attn.q_linear." ".cross_attn.q_proj."
    else if sContains n2 ".cross_attn.q_fc." then
      sReplaceAll n2 ".cross_attn.q_fc." ".cross_attn.q_proj."
    else n2
  if sContains n3 ".cross_attn.kv." then
    let n4 := sReplaceAll n3 ".cross_attn.kv." ".cross_attn.kv_proj."
    if sContains n4 ".weight" || sContains n4 ".bias" then RenameOutcome.kvAssign n4
    else decoderRenameRest n4
  else if sContains n3 ".cross_attn.kv_linear." then
    decoderRenameRest (sReplaceAll n3 ".cross_attn.kv_linear." ".cross_attn.kv_proj.")
  else if sContains n3 ".cross_attn.kv_fc." then
    decoderRenameRest (sReplaceAll n3 ".cross_attn.kv_fc." ".cross_attn.kv_proj.")
  else decoderRenameRest n3

/-- The full key-renaming pipeline of `load_paddle_weights` (converter lines
238-430): batch-norm stat renames, backbone skips, `before_gtc` rename, the
gtc-head rules, the decoder branch and the SVTR neck renames.  A key whose
rule-3 branch rewrites it to the transformer embedding name falls through
rule 4 (whose `startswith` test no longer matches) and the SVTR renames
(which do not match either), exactly as in the Python control flow. -/
def renameKey (paddleKey : String) : RenameOutcome :=
  let k2 := sReplaceAll (sReplaceAll paddleKey "._mean" ".running_mean")
    "._variance" ".running_var"
  if k2 == "backbone.last_conv.weight" then RenameOutcome.skip
  else if k2 == "backbone.fc.weight" then RenameOutcome.skip
  else if k2 == "backbone.fc.bias" then RenameOutcome.skip
  else
    let k3 :=
      if sStartsWith k2 "head.before_gtc." then
        sReplaceFirst k2 "head.before_gtc." "head.nrtr_before_gtc."
      else k2
    if k3 == "head.gtc_head.embedding.embedding.weight" then
      RenameOutcome.key (svtrRename "head.nrtr_head_transformer.embedding.embedding.weight")
    else if k3 == "head.gtc_head.positional_encoding.pe" then RenameOutcome.skip
    else if k3 == "head.gtc_head.tgt_word_prj.weight" then RenameOutcome.skip
    else if sStartsWith k3 "head.gtc_head.decoder." then
      match decoderRename k3 with
      | RenameOutcome.key k => RenameOutcome.key (svtrRename k)
      | r => r
    else RenameOutcome.key (svtrRename k3)

/-! ## Tensor processing: transpose and the conv4 replication -/

/-- The special-cased convolution key substring (converter line 457). -/
def conv4Pattern : String := "head.ctc_encoder.encoder.conv4.conv.weight"

/-- The reshape of the conv4 branch (converter lines 485-497): a fresh zero
tensor of shape `[s0, s1, t2, s3]` whose dimension-2 slices are all filled
with the source's dimension-2 slice at index 0 whenever `t2` exceeds the
source's dimension-2 extent (the fill loop is guarded by
`reshape_dims[2] > source.shape[2]`).  Flat index `m` of the result
decomposes as `m = ((i*s1+j)*t2 + p)*s3 + q`, so `m % s3 = q` and
`m / s3 / t2 = i*s1+j`; the corresponding source element sits at flat index
`((i*s1+j)*s2 + 0)*s3 + q`. -/
def conv4Reshape (src : Tensor) (t2 : Nat) : Tensor :=
  match src.shape with
  | [s0, s1, s2, s3] =>
    { shape := [s0, s1, t2, s3],
      data :=
        if s2 < t2 then
          (List.range (s0 * s1 * t2 * s3)).map
            (fun m => src.data.getD ((m / s3 / t2 * s2 + 0) * s3 + m % s3) 0)
        else (List.range (s0 * s1 * t2 * s3)).map (fun _ => 0) }
  | _ => src

/-- `tensor.T` for a 2-D tensor (converter line 499); element `(j, i)` of the
result, at flat index `m = j*r + i`, is element `(i, j)` of the source, at
flat index `i*c + j` with `i = m % r` and `j = m / r`. -/
def transpose2 (src : Tensor) : Tensor :=
  match src.shape with
  | [r, c] =>
    { shape := [c, r],
      data := (List.range (c * r)).map (fun m => src.data.getD (m % r * c + m / r) 0) }
  | _ => src

/-- Extract the dimension-2 slice at index `p` of a 4-D tensor: the claim
C10 compares such slices of the loaded tensor with the source's slice 0. -/
def sliceDim2 (t : Tensor) (p : Nat) : Tensor :=
  match t.shape with
  | [s0, s1, s2, s3] =>
    { shape := [s0, s1, s3],
      data := (List.range (s0 * s1 * s3)).map
        (fun m => t.data.getD ((m / s3 * s2 + p) * s3 + m % s3) 0) }
  | _ => t

/-- Result of the shape-adjustment and shape-check section of the per-key
loop body (converter lines 440-513): `exn` when the Python code raises inside
the `try` block (an `IndexError` on `shape[2]`/`shape[3]`, or the mismatched
slice assignment in the fill loop, all caught by the `except` and recorded as
unmatched), `mismatch` when the processed shape differs from the target
shape, and `store t` when `t` is copied into the target parameter. -/
inductive ProcResult where
  | exn : ProcResult
  | mismatch : ProcResult
  | store (t : Tensor) : ProcResult
deriving DecidableEq, Repr

/-- The shape-adjustment logic of the per-key loop body (converter lines
451-508).  The Python code reads nothing of the target tensor but its shape
(and dtype, irrelevant here), so the target enters as `tgtShape`.

In the conv4 branch, `source.shape[2]` raises `IndexError` when the source
has fewer than 3 dimensions; when it equals 1, `target.shape[2]` raises when
the target has fewer than 3 dimensions; when that equals 3 the reshape path
runs, which for a source of exactly 4 dimensions builds the replicated
tensor, raises `IndexError` on `source.shape[3]` for a 3-dimensional source,
and raises on the slice assignment for 5 or more dimensions.  Otherwise the
generic 2-D transpose test of lines 472-482 applies to keys ending in
`.weight`, and the untouched source is used in all remaining cases.  Lines
504-513 then compare the processed shape with the target shape. -/
def processTensor (k : String) (src : Tensor) (tgtShape : List Nat) : ProcResult :=
  let res : Except Unit Tensor :=
    if sContains k conv4Pattern then
      match src.shape with
      | [_, _, s2, _] =>
        if s2 == 1 then
          match tgtShape.get? 2 with
          | none => Except.error ()
          | some t2 =>
            if t2 == 3 then Except.ok (conv4Reshape src t2) else Except.ok src
        else Except.ok src
      | sh =>
        if sh.length ≤ 2 then Except.error ()
        else if sh.getD 2 0 == 1 then
          match tgtShape.get? 2 with
          | none => Except.error ()
          | some t2 => if t2 == 3 then Except.error () else Except.ok src
        else Except.ok src
    else if sEndsWith k ".weight" && src.shape.length == 2 &&
        tgtShape.length == 2 && src.shape.reverse == tgtShape then
      Except.ok (transpose2 src)
    else Except.ok src
  match res with
  | Except.error _ => ProcResult.exn
  | Except.ok t => if t.shape == tgtShape then ProcResult.store t else ProcResult.mismatch

/-! ## The state of `load_paddle_weights` -/

/-- One entry of the local `pytorch_state_dict` snapshot: `aliasE` means the
entry still holds the live parameter tensor returned by
`self.net.state_dict()` (so `copy_` through it mutates the model parameter of
the same name), `repl t` means the entry was rebound by a plain dictionary
assignment (`pytorch_state_dict[k] = t`) and no longer aliases any model
parameter. -/
inductive DictEntry where
  | aliasE : DictEntry
  | repl (t : Tensor) : DictEntry
deriving DecidableEq, Repr

/-- Why a Paddle key was recorded in `unmatched_paddle_keys_info`. -/
inductive UnmatchReason where
  | notFound : UnmatchReason
  | shapeMismatch : UnmatchReason
  | runtimeError : UnmatchReason
deriving DecidableEq, Repr

/-- The mutable state of `load_paddle_weights`: the model parameters
(`net`), the local `pytorch_state_dict` snapshot (`snap`), the set of
successfully loaded PyTorch keys (`loaded`, in insertion order), the list of
unmatched Paddle keys with the reason for each, and the number of loop
iterations executed (`seen`). -/
structure LoadState where
  net : StateDict
  snap : List (String × DictEntry)
  loaded : List String
  unmatched : List (String × UnmatchReason)
  seen : Nat
deriving DecidableEq, Repr

/-- Python `set.add`: append the key when absent. -/
def addKey (l : List String) (k : String) : List String :=
  if l.contains k then l else l ++ [k]

/-- Reading `pytorch_state_dict[k]`: an aliased entry yields the current
model parameter, a replaced entry yields the replacement tensor.  Alias
entries exist only for keys of `net` (the snapshot is created from
`self.net.state_dict()`), so absence of a snapshot entry coincides with the
Python `k not in pytorch_state_dict` test. -/
def snapGet (s : LoadState) (k : String) : Option Tensor :=
  match lookupA s.snap k with
  | some DictEntry.aliasE => lookupA s.net k
  | some (DictEntry.repl t) => some t
  | none => none

/-- `target_pytorch_tensor.copy_(t)` where the target was fetched from the
snapshot at key `k`: through an aliased entry this writes the model
parameter; through a replaced entry it mutates only the replacement tensor
and the model parameters are untouched. -/
def snapWrite (s : LoadState) (k : String) (t : Tensor) : LoadState :=
  match lookupA s.snap k with
  | some DictEntry.aliasE => { s with net := updateA s.net k t }
  | some (DictEntry.repl _) => { s with snap := updateA s.snap k (DictEntry.repl t) }
  | none => s

/-- One iteration of the `for paddle_key, paddle_tensor_val in
para_state_dict.items()` loop of `load_paddle_weights` (converter lines
238-518). -/
def loadStep (s : LoadState) (item : String × Tensor) : LoadState :=
  let s1 : LoadState := { s with seen := s.seen + 1 }
  match renameKey item.1 with
  | RenameOutcome.skip => s1
  | RenameOutcome.kvAssign k =>
    { s1 with
      snap := setA s1.snap k (DictEntry.repl item.2),
      loaded := addKey s1.loaded k }
  | RenameOutcome.key k =>
    match snapGet s1 k with
    | none => { s1 with unmatched := s1.unmatched ++ [(item.1, UnmatchReason.notFound)] }
    | some tgt =>
      match processTensor k item.2 tgt.shape with
      | ProcResult.exn =>
        { s1 with unmatched := s1.unmatched ++ [(item.1, UnmatchReason.runtimeError)] }
      | ProcResult.mismatch =>
        { s1 with unmatched := s1.unmatched ++ [(item.1, UnmatchReason.shapeMismatch)] }
      | ProcResult.store t =>
        let s2 := snapWrite s1 k t
        { s2 with loaded := addKey s2.loaded k }

/-- The whole key loop of `load_paddle_weights`, folded over the Paddle
state dict.  The function is total: every per-key failure is recorded and
the loop proceeds (the loop body is wrapped in `try`/`except`). -/
def load_paddle_weights (sd : StateDict) (s : LoadState) : LoadState :=
  sd.foldl loadStep s

/-- The state at entry of `load_paddle_weights`: the snapshot
`pytorch_state_dict = self.net.state_dict()` aliases every model parameter,
nothing is loaded or unmatched yet. -/
def initLoadState (net : StateDict) : LoadState :=
  { net := net
    snap := net.map (fun p => (p.1, DictEntry.aliasE))
    loaded := []
    unmatched := []
    seen := 0 }

/-- `BaseOCRV20.save_pytorch_weights` (base_ocr_v20.py lines 118-152)
serializes `self.net.state_dict()` afresh: every value in our model is a
tensor, so the saved checkpoint is exactly the model parameter dict.
Snapshot entries rebound during loading do not appear in it. -/
def savedCheckpoint (sd : StateDict) (net : StateDict) : StateDict :=
  (load_paddle_weights sd (initLoadState net)).net

/-! ## Inference of `out_channels_for_ctc` (converter `__init__`, lines 28-117) -/

/-- The weight-key patterns searched first (converter lines 39-43). -/
def ctcWeightPatterns : List String :=
  ["head.ctc_head.fc.weight", "head.fc.weight", "fc.weight"]

/-- The bias-key fallback patterns (converter lines 66-70). -/
def ctcBiasPatterns : List String :=
  ["head.ctc_head.fc.bias", "head.fc.bias", "fc.bias"]

/-- The per-key test of the search loops: `pattern in k and "ctc" in
k.lower()` (converter lines 49-51 and 73). -/
def patternHit (p k : String) : Bool :=
  sContains k p && sContains (sToLower k) "ctc"

/-- The nested search loops (converter lines 47-55 and 71-77): for each
pattern in order, the first key of `reversed(list(para_state_dict.keys()))`
that hits it; the outer loop breaks at the first pattern with a hit. -/
def findKeyForPatterns (revKeys : List String) : List String → Option String
  | [] => none
  | p :: ps =>
    match revKeys.find? (fun k => patternHit p k) with
    | some k => some k
    | none => findKeyForPatterns revKeys ps

/-- `out_channels_for_ctc` determination (converter lines 28-117), as an
exception monad: `Except.error ()` wherever the Python code ends up raising
out of the `try` block (an `IndexError` on an out-of-range `shape[i]`, or
the final `ValueError` on a non-positive result, both of which abort
`__init__` via the bare `raise` of line 121).  A hit on a weight pattern
takes `shape[1]`; otherwise a hit on a bias pattern takes `shape[0]`;
otherwise the last key of the dict is used, `shape[1]` for a 2-D `.weight`
key, `shape[0]` for other 2-D keys and for 1-D keys, and the initial `-1`
(hence the final `ValueError`) for any other rank. -/
def inferOutChannels (sd : StateDict) : Except Unit Nat :=
  let revKeys := (sd.map Prod.fst).reverse
  let positive : Nat → Except Unit Nat := fun n =>
    if n == 0 then Except.error () else Except.ok n
  match findKeyForPatterns revKeys ctcWeightPatterns with
  | some k =>
    match lookupA sd k with
    | some t =>
      match t.shape.get? 1 with
      | some n => positive n
      | none => Except.error ()
    | none => Except.error ()
  | none =>
    match findKeyForPatterns revKeys ctcBiasPatterns with
    | some k =>
      match lookupA sd k with
      | some t =>
        match t.shape.get? 0 with
        | some n => positive n
        | none => Except.error ()
      | none => Except.error ()
    | none =>
      match (sd.map Prod.fst).getLast? with
      | some lk =>
        match lookupA sd lk with
        | some t =>
          if t.shape.length == 2 then
            positive (if sEndsWith lk ".weight" then t.shape.getD 1 0 else t.shape.getD 0 0)
          else if t.shape.length == 1 then positive (t.shape.getD 0 0)
          else Except.error ()
        | none => Except.error ()
      | none => Except.error ()

/-! ## Architecture config and the head construction -/

/-- The slice of the YAML `Architecture.Head` config that the converter and
`BaseModel` read: the head name, the names of the sub-heads of `head_list`
(for `MultiHead`), the `out_channels_list` the converter writes, and the
scalar fields the converter edits. -/
structure HeadConfig where
  name : String
  headList : List String
  outChannelsList : List (String × Nat)
  outChannels : Option Nat
  numClasses : Option Nat
  numDecoderLayers : Option Nat
deriving DecidableEq, Repr

/-- The slice of the architecture config threaded from the converter into
`BaseModel`. -/
structure ArchConfig where
  head : Option HeadConfig
  numClasses : Option Nat
  modelName : String
deriving DecidableEq, Repr

/-- The default `Head` sub-dict inserted by `if "Head" not in config:
config["Head"] = {}` (converter lines 124-125); the missing name reads as
`"UnknownHead"` (line 127). -/
def emptyHeadConfig : HeadConfig :=
  { name := "UnknownHead", headList := [], outChannelsList := [],
    outChannels := none, numClasses := none, numDecoderLayers := none }

/-- The config edits of converter lines 123-186 once `out_channels_for_ctc`
is known and positive: for `MultiHead` the converter writes
`out_channels_list = {"CTCLabelDecode": oc}` and deletes `out_channels` and
`num_classes` from the head; for `CTCHead` it writes `out_channels`; the
top-level `num_classes` is forced to 18384; a present `num_decoder_layers`
is forced to 4. -/
def converterUpdateHead (h0 : HeadConfig) (oc : Nat) : HeadConfig :=
  if h0.name == "MultiHead" then
    { h0 with outChannelsList := [("CTCLabelDecode", oc)],
              outChannels := none, numClasses := none }
  else if h0.name == "CTCHead" then { h0 with outChannels := some oc }
  else h0

/-- The forcing of `num_decoder_layers` to 4 when the field is present
(converter lines 183-186). -/
def forceDecoderLayers (h1 : HeadConfig) : HeadConfig :=
  if h1.numDecoderLayers.isSome then { h1 with numDecoderLayers := some 4 } else h1

def converterUpdateConfig (cfg : ArchConfig) (oc : Nat) : ArchConfig :=
  { cfg with
    head := some (forceDecoderLayers (converterUpdateHead (cfg.head.getD emptyHeadConfig) oc)),
    numClasses := some 18384 }

/-- The `out_channels_list` that `BaseModel.__init__` hard-codes for a
`MultiHead` head (base_model.py lines 148-153), overwriting whatever the
converter stored in the config: `18385` for the CTC branch (`18384+1`),
`18388` for NRTR, `18387` for SAR. -/
def out_channels_list_for_multihead : List (String × Nat) :=
  [("CTCLabelDecode", 18385), ("NRTRLabelDecode", 18388), ("SARLabelDecode", 18387)]

/-- The output dimension of the CTC branch of the instantiated head.  For a
`MultiHead` head, `BaseModel.__init__` replaces the configured
`out_channels_list` with `out_channels_list_for_multihead` before calling
`build_head`, and `MultiHead.__init__` (rec_multi_head.py lines 265-290)
builds its `ctc_head` with `out_channels = out_channels_list["CTCLabelDecode"]`
whenever a `CTCHead` entry occurs in `head_list`.  `none` when no MultiHead
CTC branch is built. -/
def baseModelCtcOutDim (cfg : ArchConfig) : Option Nat :=
  match cfg.head with
  | none => none
  | some h =>
    if h.name == "MultiHead" then
      if h.headList.contains "CTCHead" then
        lookupA out_channels_list_for_multihead "CTCLabelDecode"
      else none
    else none

/-- Fatal failures of `PPOCRv5RecConverter.__init__` before model
construction. -/
inductive ConvError where
  | emptyDict : ConvError
  | inferError : ConvError
deriving DecidableEq, Repr

/-- The linear pipeline of `PPOCRv5RecConverter.__init__` (converter lines
15-204) after the checkpoint is read, over an already-built parameter dict
`net0` for the PyTorch model: filter the state dict, raise `ValueError` when
it is empty (line 23, before any model construction), determine
`out_channels_for_ctc` (raising on failure), update the config, construct
the model (its CTC branch dimension is returned) and load the Paddle
weights.  An error return means neither model construction nor weight
copying took place. -/
def converterPipeline (cfg : ArchConfig) (sd : StateDict) (net0 : StateDict) :
    Except ConvError (Option Nat × LoadState) :=
  let sd' := del_invalid_state_dict sd
  if sd'.isEmpty then Except.error ConvError.emptyDict
  else
    match inferOutChannels sd' with
    | Except.error _ => Except.error ConvError.inferError
    | Except.ok oc =>
      let cfg' := converterUpdateConfig cfg oc
      Except.ok (baseModelCtcOutDim cfg', load_paddle_weights sd' (initLoadState net0))

/-! ## `MultiHead.forward` in evaluation mode (rec_multi_head.py) -/

/-- The pieces of a constructed `MultiHead` relevant to `forward`: the CTC
encoder and CTC head (each `none` when `MultiHead.__init__` did not build
the branch), and the SAR and NRTR branches, abstract functions from the
backbone features.  `α` is the backbone feature type, `β` the CTC encoder
output type, `γ` the head output type. -/
structure MultiHeadModel (α β γ : Type) where
  ctcEncoder : Option (α → β)
  ctcHead : Option (β → γ)
  sarHead : Option (α → γ)
  nrtrHead : Option (α → γ)

/-- `MultiHead.forward` with `self.training = False` (rec_multi_head.py
lines 308-359): when both `self.ctc_encoder` and `self.ctc_head` were built
(non-`None` modules are truthy), `ctc_out = self.ctc_head(self.ctc_encoder(x))`
is computed and returned directly — the SAR/NRTR training-only section is
below the `return` and never runs; otherwise the `else` branch raises
`RuntimeError` before any output is produced. -/
def multiHeadForwardEval {α β γ : Type} (m : MultiHeadModel α β γ) (x : α) :
    Except String γ :=
  match m.ctcEncoder, m.ctcHead with
  | some enc, some h => Except.ok (h (enc x))
  | _, _ => Except.error "MultiHead: CTC path is not built, cannot proceed with inference."

/-! ## Helper lemmas -/

lemma foldl_append_acc (sd acc : StateDict) :
    sd.foldl (fun a p => a ++ [p]) acc = acc ++ sd := by
  induction sd generalizing acc with
  | nil => simp
  | cons p t ih => simp [List.foldl_cons, ih]

lemma del_old_acc (sd : StateDict) :
    ∀ acc : StateDict,
      (∀ p ∈ sd, sContains p.1 "gtc_head" = false ∧
        sStartsWith p.1 "head.before_gtc" = false) →
      sd.foldl
        (fun a p =>
          if sContains p.1 "gtc_head" then a
          else if sStartsWith p.1 "head.before_gtc" then a
          else a ++ [p]) acc = acc ++ sd := by
  induction sd with
  | nil => intro acc _; simp
  | cons p t ih =>
    intro acc h
    have hp := h p (List.mem_cons_self p t)
    simp only [List.foldl_cons, hp.1, hp.2, Bool.false_eq_true, if_false]
    rw [ih (acc ++ [p]) (fun q hq => h q (List.mem_cons_of_mem p hq))]
    simp

/-! ## Claim C8 -/

/-- Claim C8: the current converter's `del_invalid_state_dict` is the
identity on key-value content and order, and on every state dict in which no
key contains `gtc_head` and no key starts with `head.before_gtc` it agrees
with the older converter's `del_invalid_state_dict`. -/
theorem C8_del_invalid_identity :
    (∀ sd : StateDict, del_invalid_state_dict sd = sd) ∧
    (∀ sd : StateDict,
      (∀ p ∈ sd, sContains p.1 "gtc_head" = false ∧
        sStartsWith p.1 "head.before_gtc" = false) →
      del_invalid_state_dict sd = del_invalid_state_dict_old sd) := by
  constructor
  · intro sd
    simpa using foldl_append_acc sd []
  · intro sd h
    unfold del_invalid_state_dict del_invalid_state_dict_old
    rw [foldl_append_acc sd [], del_old_acc sd [] h]

/-- A concrete state dict exercising C8. -/
def sdC8 : StateDict :=
  [("backbone.conv1.weight", { shape := [2], data := [3, 4] }),
   ("head.ctc_head.fc.bias", { shape := [1], data := [5] })]

/-- Witness for C8 at a concrete state dict with no gtc keys. -/
theorem C8_del_invalid_identity_witness :
    del_invalid_state_dict sdC8 = sdC8 ∧
    del_invalid_state_dict sdC8 = del_invalid_state_dict_old sdC8 :=
  ⟨C8_del_invalid_identity.1 sdC8, C8_del_invalid_identity.2 sdC8 (by decide)⟩

/-! ## Claim C9 -/

/-- Claim C9: in evaluation mode, `MultiHead.forward` returns exactly the
CTC head's output of the CTC encoder's output whenever both CTC modules were
built — the SAR and NRTR branches are never consulted — and raises a
`RuntimeError` when the CTC path was not built. -/
theorem C9_forward_eval {α β γ : Type} (m : MultiHeadModel α β γ) (x : α) :
    (∀ (enc : α → β) (h : β → γ), m.ctcEncoder = some enc → m.ctcHead = some h →
      multiHeadForwardEval m x = Except.ok (h (enc x))) ∧
    ((m.ctcEncoder = none ∨ m.ctcHead = none) →
      multiHeadForwardEval m x =
        Except.error "MultiHead: CTC path is not built, cannot proceed with inference.") := by
  constructor
  · intro enc h he hh
    unfold multiHeadForwardEval
    rw [he, hh]
  · intro hnone
    unfold multiHeadForwardEval
    rcases hnone with hn | hn
    · rw [hn]
    · rw [hn]
      cases m.ctcEncoder <;> rfl

/-- A MultiHead with both CTC modules built (over `Nat` features). -/
def mhBuilt : MultiHeadModel Nat Nat Nat :=
  { ctcEncoder := some (fun v => v + 1), ctcHead := some (fun v => v * 2),
    sarHead := some (fun _ => 0), nrtrHead := none }

/-- A MultiHead whose CTC head was not built. -/
def mhNoCtc : MultiHeadModel Nat Nat Nat :=
  { ctcEncoder := some (fun v => v + 1), ctcHead := none,
    sarHead := some (fun _ => 0), nrtrHead := none }

/-- Witness for C9: at input 3, the built MultiHead returns the CTC value
`(3+1)*2 = 8`, and the CTC-less MultiHead raises. -/
theorem C9_forward_eval_witness :
    multiHeadForwardEval mhBuilt 3 = Except.ok 8 ∧
    multiHeadForwardEval mhNoCtc 3 =
      Except.error "MultiHead: CTC path is not built, cannot proceed with inference." :=
  ⟨(C9_forward_eval mhBuilt 3).1 (fun v => v + 1) (fun v => v * 2) rfl rfl,
   (C9_forward_eval mhNoCtc 3).2 (Or.inr rfl)⟩

/-! ## Claim C5 -/

/-- Claim C5: on an empty (loaded and filtered) parameter state dict,
`PPOCRv5RecConverter.__init__` raises the `ValueError` of converter line 24
before any model construction or weight copying: the pipeline returns the
`emptyDict` error and neither a CTC dimension nor a load state is produced. -/
theorem C5_empty_dict_error (cfg : ArchConfig) (net0 : StateDict) :
    converterPipeline cfg [] net0 = Except.error ConvError.emptyDict := rfl

/-! ## Claim C1 -/

/-- A MultiHead architecture config with a CTC sub-head, as the PP-OCRv5
server recognition YAML declares. -/
def cfgC1 : ArchConfig :=
  { head := some { name := "MultiHead", headList := ["CTCHead", "NRTRHead"],
                   outChannelsList := [], outChannels := none,
                   numClasses := none, numDecoderLayers := some 6 },
    numClasses := none, modelName := "PP-OCRv5" }

/-- A source checkpoint whose CTC head fully-connected weight has
`shape[1] = 100`, so the inferred class count is 100. -/
def sdC1 : StateDict :=
  [("head.ctc_head.fc.weight", { shape := [64, 100], data := [] })]

/-- Counterexample to claim C1 as stated: on `sdC1` the class count inferred
from the CTC weight key's `shape[1]` is 100, yet the instantiated MultiHead's
CTC branch output dimension is the hard-coded 18385 of
`BaseModel.__init__` (base_model.py lines 148-153), not 100. -/
theorem C1_counterexample :
    inferOutChannels (del_invalid_state_dict sdC1) = Except.ok 100 ∧
    (converterPipeline cfgC1 sdC1 []).map Prod.fst = Except.ok (some 18385) ∧
    (18385 : Nat) ≠ 100 := by
  refine ⟨rfl, rfl, by decide⟩

/-- `converterUpdateHead` and `forceDecoderLayers` preserve the head name
and `head_list` (they only rewrite `out_channels_list` and scalar fields). -/
lemma updateHead_name_headList (h0 : HeadConfig) (oc : Nat) :
    (forceDecoderLayers (converterUpdateHead h0 oc)).name = h0.name ∧
    (forceDecoderLayers (converterUpdateHead h0 oc)).headList = h0.headList := by
  unfold forceDecoderLayers converterUpdateHead
  refine ⟨?_, ?_⟩ <;> (repeat' split) <;> rfl

/-- For a config whose head is a `MultiHead` with a CTC sub-head, the
constructed CTC branch dimension is the hard-coded 18385. -/
lemma baseModelCtcOutDim_multihead (cfg2 : ArchConfig) (h2 : HeadConfig)
    (hh : cfg2.head = some h2) (hn : h2.name = "MultiHead")
    (hc2 : h2.headList.contains "CTCHead" = true) :
    baseModelCtcOutDim cfg2 = some 18385 := by
  unfold baseModelCtcOutDim
  rw [hh]
  have hb : (h2.name == "MultiHead") = true := by rw [hn]; rfl
  simp only [hb, if_true, hc2]
  rfl

/-- Claim C1 amended: for every conversion that completes on a `MultiHead`
config whose `head_list` contains a CTC sub-head, the CTC branch output
dimension is the constant 18385 hard-coded in `BaseModel.__init__`,
regardless of the class count inferred from the checkpoint; it equals the
inferred count exactly when that count is 18385. -/
theorem C1_ctc_dim_hardcoded (cfg : ArchConfig) (sd net0 : StateDict)
    (hc : HeadConfig) (d : Option Nat) (st : LoadState)
    (hhead : cfg.head = some hc) (hname : hc.name = "MultiHead")
    (hctc : hc.headList.contains "CTCHead" = true)
    (hrun : converterPipeline cfg sd net0 = Except.ok (d, st)) :
    d = some 18385 ∧
    ∀ oc : Nat, inferOutChannels (del_invalid_state_dict sd) = Except.ok oc →
      (d = some oc ↔ oc = 18385) := by
  unfold converterPipeline at hrun
  dsimp only at hrun
  split at hrun
  · exact absurd hrun (by simp)
  · cases hoc : inferOutChannels (del_invalid_state_dict sd) with
    | error e =>
      rw [hoc] at hrun
      exact absurd hrun (by simp)
    | ok oc =>
      rw [hoc] at hrun
      simp only [Except.ok.injEq, Prod.mk.injEq] at hrun
      obtain ⟨hd, _⟩ := hrun
      have hpres := updateHead_name_headList (cfg.head.getD emptyHeadConfig) oc
      have hdim : baseModelCtcOutDim (converterUpdateConfig cfg oc) = some 18385 := by
        refine baseModelCtcOutDim_multihead _ _ rfl ?_ ?_
        · rw [hpres.1, hhead]
          exact hname
        · rw [hpres.2, hhead]
          exact hctc
      refine ⟨by rw [← hd, hdim], ?_⟩
      intro oc2 hoc2
      have hoeq : oc = oc2 := Except.ok.inj hoc2
      subst hoeq
      rw [← hd, hdim]
      simp [eq_comm]

/-- Witness for the amended C1 at the concrete config and checkpoint. -/
theorem C1_ctc_dim_hardcoded_witness :
    (converterPipeline cfgC1 sdC1 [] =
      Except.ok (some 18385, load_paddle_weights sdC1 (initLoadState []))) ∧
    (some 18385 : Option Nat) = some 18385 :=
  ⟨rfl,
   (C1_ctc_dim_hardcoded cfgC1 sdC1 []
      { name := "MultiHead", headList := ["CTCHead", "NRTRHead"],
        outChannelsList := [], outChannels := none,
        numClasses := none, numDecoderLayers := some 6 }
      (some 18385) (load_paddle_weights sdC1 (initLoadState []))
      rfl rfl (by decide) rfl).1⟩

/-! ## Tensor lemmas -/

lemma getD_map_range (n m : Nat) (f : Nat → Int) :
    ((List.range n).map f).getD m 0 = if m < n then f m else 0 := by
  rw [List.getD_eq_getElem?_getD, List.getElem?_map]
  by_cases h : m < n
  · rw [List.getElem?_range h]
    simp [h]
  · rw [List.getElem?_eq_none (by simpa using Nat.le_of_not_lt h)]
    simp [h]

lemma digit_bound {x X y Y : Nat} (hx : x < X) (hy : y < Y) : x * Y + y < X * Y := by
  calc x * Y + y < x * Y + Y := by omega
    _ = (x + 1) * Y := by ring
    _ ≤ X * Y := Nat.mul_le_mul_right Y hx

lemma div_add_mul_right (r q d : Nat) (hr : r < d) : (r + q * d) / d = q := by
  rw [Nat.add_mul_div_right _ _ (by omega : 0 < d), Nat.div_eq_of_lt hr]
  omega

lemma mod_add_mul_right (r q d : Nat) (hr : r < d) : (r + q * d) % d = r := by
  rw [Nat.add_mul_mod_self_right, Nat.mod_eq_of_lt hr]

lemma transpose2_shape (v : Tensor) (r c : Nat) (h : v.shape = [r, c]) :
    (transpose2 v).shape = [c, r] := by
  obtain ⟨sh, dat⟩ := v
  dsimp only at h
  subst h
  rfl

lemma conv4Reshape_shape (v : Tensor) (a b s2 d t2 : Nat) (h : v.shape = [a, b, s2, d]) :
    (conv4Reshape v t2).shape = [a, b, t2, d] := by
  obtain ⟨sh, dat⟩ := v
  dsimp only at h
  subst h
  rfl

/-- Each dimension-2 slice of the conv4-replicated tensor equals the
source's dimension-2 slice at index 0. -/
lemma conv4Reshape_slices (v : Tensor) (a b d t2 : Nat)
    (hv : v.shape = [a, b, 1, d]) (ht2 : 1 < t2) :
    ∀ i, i < t2 → sliceDim2 (conv4Reshape v t2) i = sliceDim2 v 0 := by
  intro i hi
  obtain ⟨sh, dat⟩ := v
  dsimp only at hv
  subst hv
  have hrepl : conv4Reshape ⟨[a, b, 1, d], dat⟩ t2 =
      ⟨[a, b, t2, d], (List.range (a * b * t2 * d)).map
        (fun m => dat.getD ((m / d / t2 * 1 + 0) * d + m % d) 0)⟩ := by
    show (⟨[a, b, t2, d], if 1 < t2 then _ else _⟩ : Tensor) = _
    rw [if_pos ht2]
  rw [hrepl]
  show (⟨[a, b, d], _⟩ : Tensor) = ⟨[a, b, d], _⟩
  congr 1
  refine List.map_eq_map_iff.mpr ?_
  intro m hm
  rw [List.mem_range] at hm
  have hd : 0 < d := by
    rcases Nat.eq_zero_or_pos d with h0 | h0
    · subst h0; simp at hm
    · exact h0
  have hmod : m % d < d := Nat.mod_lt _ hd
  have hdiv : m / d < a * b := by
    rw [Nat.div_lt_iff_lt_mul hd]
    exact hm
  have hMlt : (m / d * t2 + i) * d + m % d < a * b * t2 * d := by
    have h1 : m / d * t2 + i < a * b * t2 := digit_bound hdiv hi
    exact digit_bound h1 hmod
  rw [getD_map_range, if_pos hMlt]
  have hMd : (m / d * t2 + i) * d + m % d = m % d + (m / d * t2 + i) * d := by omega
  have hMmod : ((m / d * t2 + i) * d + m % d) % d = m % d := by
    rw [hMd, mod_add_mul_right _ _ _ hmod]
  have hMdiv : ((m / d * t2 + i) * d + m % d) / d = m / d * t2 + i := by
    rw [hMd, div_add_mul_right _ _ _ hmod]
  have hMdt : ((m / d * t2 + i) * d + m % d) / d / t2 = m / d := by
    rw [hMdiv]
    have hcomm : m / d * t2 + i = i + m / d * t2 := by omega
    rw [hcomm, div_add_mul_right _ _ _ hi]
  rw [hMmod, hMdt]

/-! ## Case analysis of the shape-adjustment logic -/

/-- On a conv4 key with a 4-D source of dimension-2 extent 1 and a target
shape with extent 3 in dimension 2 and agreeing elsewhere, the processed
tensor is the dimension-2 replication and it is stored. -/
lemma processTensor_conv4_store (k : String) (dat : List Int)
    (tgtShape : List Nat) (a b d : Nat)
    (hc4 : sContains k conv4Pattern = true)
    (ht : tgtShape = [a, b, 3, d]) :
    processTensor k ⟨[a, b, 1, d], dat⟩ tgtShape =
      ProcResult.store (conv4Reshape ⟨[a, b, 1, d], dat⟩ 3) := by
  subst ht
  unfold processTensor
  have hsh := conv4Reshape_shape ⟨[a, b, 1, d], dat⟩ a b 1 d 3 rfl
  simp [hc4, hsh]

/-- On a non-conv4 `.weight` key with a 2-D source whose reversed shape is
the 2-D target shape, the processed tensor is the transpose and it is
stored. -/
lemma processTensor_transpose (k : String) (v : Tensor) (tgtShape : List Nat)
    (r c : Nat)
    (hc4 : sContains k conv4Pattern = false)
    (hw : sEndsWith k ".weight" = true)
    (hv : v.shape = [r, c]) (ht : tgtShape = [c, r]) :
    processTensor k v tgtShape = ProcResult.store (transpose2 v) := by
  subst ht
  unfold processTensor
  have hsh := transpose2_shape v r c hv
  simp [hc4, hw, hv, hsh]

/-- When the source and target shapes are equal and the 2-D transpose
condition does not fire, any stored tensor is the source unchanged. -/
lemma processTensor_store_eq_shape (k : String) (v : Tensor)
    (tgtShape : List Nat) (t : Tensor)
    (heq : v.shape = tgtShape)
    (hcond : sContains k conv4Pattern = true ∨
      (sEndsWith k ".weight" && (v.shape.length == 2) && (tgtShape.length == 2) &&
        (v.shape.reverse == tgtShape)) = false)
    (hstore : processTensor k v tgtShape = ProcResult.store t) : t = v := by
  obtain ⟨sh, dat⟩ := v
  dsimp only at heq
  subst heq
  by_cases hc4 : sContains k conv4Pattern = true
  · unfold processTensor at hstore
    simp only [hc4, if_true] at hstore
    rcases sh with _ | ⟨a, _ | ⟨b, _ | ⟨c, _ | ⟨d4, rest⟩⟩⟩⟩
    · simp at hstore
    · simp at hstore
    · simp at hstore
    · -- 3-D shape [a, b, c]
      by_cases hc1 : c = 1
      · subst hc1
        simp at hstore
        exact hstore.symm
      · have hb : (c == 1) = false := by simpa using hc1
        simp [hb] at hstore
        exact hstore.symm
    · rcases rest with _ | ⟨e, rest2⟩
      · -- exactly 4-D shape [a, b, c, d4]
        by_cases hc1 : c = 1
        · subst hc1
          simp at hstore
          exact hstore.symm
        · have hb : (c == 1) = false := by simpa using hc1
          simp [hb] at hstore
          exact hstore.symm
      · -- 5-D or more
        by_cases hc1 : c = 1
        · subst hc1
          simp at hstore
          exact hstore.symm
        · have hb : (c == 1) = false := by simpa using hc1
          simp [hb] at hstore
          exact hstore.symm
  · have hc4f : sContains k conv4Pattern = false := by simpa using hc4
    have hb : (sEndsWith k ".weight" && (sh.length == 2) && (sh.length == 2) &&
        (sh.reverse == sh)) = false := by
      rcases hcond with h | h
      · exact absurd h hc4
      · simpa using h
    unfold processTensor at hstore
    simp only [hc4f, Bool.false_eq_true, if_false] at hstore
    simp only [hb, Bool.false_eq_true, if_false] at hstore
    simp at hstore
    exact hstore.symm

/-! ## Claim C4 -/

set_option linter.unusedVariables false in
/-- Claim C4: whenever the per-key loop stores a tensor into the target
parameter under a renamed key that ends in `.weight`, does not contain the
conv4 substring, and has 2-D source and target with the source shape
reversed equal to the target shape, the stored tensor is the transpose of
the source; for every other stored key whose source and target shapes are
equal, the stored tensor is the source unchanged. -/
theorem C4_transpose_rule (s : LoadState) (pk k : String) (v tgt t : Tensor)
    (hrn : renameKey pk = RenameOutcome.key k)
    (hget : snapGet s k = some tgt)
    (hstore : processTensor k v tgt.shape = ProcResult.store t) :
    (∀ r c : Nat, sContains k conv4Pattern = false → sEndsWith k ".weight" = true →
      v.shape = [r, c] → tgt.shape = [c, r] → t = transpose2 v) ∧
    (v.shape = tgt.shape →
      ¬(sContains k conv4Pattern = false ∧ sEndsWith k ".weight" = true ∧
        v.shape.length = 2 ∧ tgt.shape.length = 2 ∧ v.shape.reverse = tgt.shape) →
      t = v) := by
  constructor
  · intro r c hc4 hw hv ht
    rw [processTensor_transpose k v tgt.shape r c hc4 hw hv ht] at hstore
    injection hstore with h
    exact h.symm
  · intro heq hne
    by_cases hc4 : sContains k conv4Pattern = true
    · exact processTensor_store_eq_shape k v tgt.shape t heq (Or.inl hc4) hstore
    · have hc4f : sContains k conv4Pattern = false := by simpa using hc4
      by_cases hb : (sEndsWith k ".weight" && (v.shape.length == 2) &&
          (tgt.shape.length == 2) && (v.shape.reverse == tgt.shape)) = true
      · exfalso
        apply hne
        simp only [Bool.and_eq_true, beq_iff_eq] at hb
        exact ⟨hc4f, hb.1.1.1, hb.1.1.2, hb.1.2, hb.2⟩
      · exact processTensor_store_eq_shape k v tgt.shape t heq
          (Or.inr (by simpa using hb)) hstore

/-- Target parameters for the C4 witness. -/
def netC4 : StateDict := [("head.fc.weight", { shape := [3, 2], data := [0, 0, 0, 0, 0, 0] })]

/-- Source tensor for the C4 witness. -/
def vC4 : Tensor := { shape := [2, 3], data := [1, 2, 3, 4, 5, 6] }

/-- Target tensor for the C4 witness. -/
def tgtC4 : Tensor := { shape := [3, 2], data := [0, 0, 0, 0, 0, 0] }

/-- Witness for C4: a 2-D fully-connected weight of shape `[2,3]` loaded
into a `[3,2]` parameter is stored transposed. -/
theorem C4_transpose_rule_witness :
    processTensor "head.fc.weight" vC4 tgtC4.shape =
      ProcResult.store { shape := [3, 2], data := [1, 4, 2, 5, 3, 6] } ∧
    ({ shape := [3, 2], data := [1, 4, 2, 5, 3, 6] } : Tensor) = transpose2 vC4 :=
  ⟨by decide,
   (C4_transpose_rule (initLoadState netC4) "head.fc.weight" "head.fc.weight"
      vC4 tgtC4 { shape := [3, 2], data := [1, 4, 2, 5, 3, 6] }
      (by decide) (by decide) (by decide)).1 2 3 (by decide) (by decide) rfl rfl⟩

/-! ## Claim C10 -/

set_option linter.unusedVariables false in
/-- Claim C10: for a matched key containing the conv4 substring whose 4-D
source has extent 1 in dimension 2 while the target has extent 3 there (the
other dimensions agreeing), the loaded tensor is the dimension-2
replication of the source, and each of its dimension-2 slices equals the
source's slice at index 0. -/
theorem C10_conv4_replication (s : LoadState) (pk k : String) (v tgt : Tensor)
    (a b d : Nat)
    (hrn : renameKey pk = RenameOutcome.key k)
    (hget : snapGet s k = some tgt)
    (hc4 : sContains k conv4Pattern = true)
    (hv : v.shape = [a, b, 1, d]) (ht : tgt.shape = [a, b, 3, d]) :
    processTensor k v tgt.shape = ProcResult.store (conv4Reshape v 3) ∧
    ∀ i, i < 3 → sliceDim2 (conv4Reshape v 3) i = sliceDim2 v 0 := by
  constructor
  · obtain ⟨sh, dat⟩ := v
    dsimp only at hv
    subst hv
    exact processTensor_conv4_store k dat tgt.shape a b d hc4 ht
  · exact conv4Reshape_slices v a b d 3 hv (by omega)

/-- Target parameters for the C10 witness. -/
def netC10 : StateDict :=
  [("head.ctc_encoder.encoder.conv4.conv.weight",
    { shape := [1, 1, 3, 2], data := [0, 0, 0, 0, 0, 0] })]

/-- Source tensor for the C10 witness. -/
def vC10 : Tensor := { shape := [1, 1, 1, 2], data := [7, 8] }

/-- Target tensor for the C10 witness. -/
def tgtC10 : Tensor := { shape := [1, 1, 3, 2], data := [0, 0, 0, 0, 0, 0] }

/-- Witness for C10 at the conv4 key with a `[1,1,1,2]` source and a
`[1,1,3,2]` target: the stored tensor replicates the single slice. -/
theorem C10_conv4_replication_witness :
    processTensor "head.ctc_encoder.encoder.conv4.conv.weight" vC10 tgtC10.shape =
      ProcResult.store (conv4Reshape vC10 3) ∧
    sliceDim2 (conv4Reshape vC10 3) 2 = sliceDim2 vC10 0 :=
  ⟨(C10_conv4_replication (initLoadState netC10)
      "head.ctc_encoder.encoder.conv4.conv.weight"
      "head.ctc_encoder.encoder.conv4.conv.weight"
      vC10 tgtC10 1 1 2 (by decide) (by decide) (by decide) rfl rfl).1,
   (C10_conv4_replication (initLoadState netC10)
      "head.ctc_encoder.encoder.conv4.conv.weight"
      "head.ctc_encoder.encoder.conv4.conv.weight"
      vC10 tgtC10 1 1 2 (by decide) (by decide) (by decide) rfl rfl).2 2 (by omega)⟩

/-! ## Per-step bookkeeping lemmas -/

lemma loadStep_seen (s : LoadState) (item : String × Tensor) :
    (loadStep s item).seen = s.seen + 1 := by
  unfold loadStep snapWrite
  split
  · rfl
  · rfl
  · dsimp only
    split
    · rfl
    · split
      · rfl
      · rfl
      · split <;> rfl

lemma load_seen (sd : StateDict) : ∀ s : LoadState,
    (load_paddle_weights sd s).seen = s.seen + sd.length := by
  induction sd with
  | nil => intro s; simp [load_paddle_weights]
  | cons p t ih =>
    intro s
    unfold load_paddle_weights at ih ⊢
    rw [List.foldl_cons, ih (loadStep s p), loadStep_seen]
    simp [List.length_cons]
    omega

lemma loadStep_unmatched_mono (s : LoadState) (item : String × Tensor) :
    ∃ l, (loadStep s item).unmatched = s.unmatched ++ l := by
  unfold loadStep snapWrite
  split
  · exact ⟨[], by simp⟩
  · exact ⟨[], by simp⟩
  · dsimp only
    split
    · exact ⟨_, rfl⟩
    · split
      · exact ⟨_, rfl⟩
      · exact ⟨_, rfl⟩
      · split <;> exact ⟨[], by simp⟩

lemma load_unmatched_mono (sd : StateDict) : ∀ s : LoadState,
    ∃ l, (load_paddle_weights sd s).unmatched = s.unmatched ++ l := by
  induction sd with
  | nil => intro s; exact ⟨[], by simp [load_paddle_weights]⟩
  | cons p t ih =>
    intro s
    obtain ⟨l1, h1⟩ := loadStep_unmatched_mono s p
    obtain ⟨l2, h2⟩ := ih (loadStep s p)
    refine ⟨l1 ++ l2, ?_⟩
    unfold load_paddle_weights at h2 ⊢
    rw [List.foldl_cons, h2, h1, List.append_assoc]

/-! ## Claim C6 -/

/-- Claim C6: `load_paddle_weights` never aborts on an individual unmatched
key.  The loop visits every key of the input dict (`seen` counts one
iteration per key, so the fold always runs to completion — the embedded loop
body is total, as the Python body is wrapped in `try`/`except`); a key whose
renamed PyTorch key is absent from the state dict is recorded as not-found;
a key whose processed tensor's shape mismatches the target is recorded as a
shape mismatch; and recorded entries are never dropped by later
iterations. -/
theorem C6_best_effort :
    (∀ (sd : StateDict) (s : LoadState),
      (load_paddle_weights sd s).seen = s.seen + sd.length) ∧
    (∀ (s : LoadState) (pk : String) (v : Tensor) (k : String),
      renameKey pk = RenameOutcome.key k → lookupA s.snap k = none →
      (loadStep s (pk, v)).unmatched = s.unmatched ++ [(pk, UnmatchReason.notFound)]) ∧
    (∀ (s : LoadState) (pk : String) (v : Tensor) (k : String) (tgt : Tensor),
      renameKey pk = RenameOutcome.key k → snapGet s k = some tgt →
      processTensor k v tgt.shape = ProcResult.mismatch →
      (loadStep s (pk, v)).unmatched = s.unmatched ++ [(pk, UnmatchReason.shapeMismatch)]) ∧
    (∀ (sd : StateDict) (s : LoadState),
      ∃ l, (load_paddle_weights sd s).unmatched = s.unmatched ++ l) := by
  refine ⟨fun sd s => load_seen sd s, ?_, ?_, fun sd s => load_unmatched_mono sd s⟩
  · intro s pk v k hrn hnone
    have hget : snapGet { s with seen := s.seen + 1 } k = none := by
      unfold snapGet
      rw [show ({ s with seen := s.seen + 1 } : LoadState).snap = s.snap from rfl, hnone]
    unfold loadStep
    dsimp only
    simp only [hrn, hget]
  · intro s pk v k tgt hrn hget hmis
    have hget1 : snapGet { s with seen := s.seen + 1 } k = some tgt := hget
    unfold loadStep
    dsimp only
    simp only [hrn, hget1, hmis]

/-- Target parameters for the C6 witness: one bias of shape `[2]`. -/
def netC6 : StateDict := [("bar.bias", { shape := [2], data := [0, 0] })]

/-- Witness for C6: an absent renamed key is recorded as not-found, a
shape-mismatched bias is recorded as a mismatch, and the loop visits both
keys of a two-key dict. -/
theorem C6_best_effort_witness :
    (load_paddle_weights
      [("foo.weight", { shape := [1], data := [5] }),
       ("bar.bias", { shape := [3], data := [1, 1, 1] })]
      (initLoadState netC6)).seen = 2 ∧
    (loadStep (initLoadState netC6) ("foo.weight", { shape := [1], data := [5] })).unmatched =
      [("foo.weight", UnmatchReason.notFound)] ∧
    (loadStep (initLoadState netC6) ("bar.bias", { shape := [3], data := [1, 1, 1] })).unmatched =
      [("bar.bias", UnmatchReason.shapeMismatch)] := by
  refine ⟨C6_best_effort.1 _ (initLoadState netC6), ?_, ?_⟩
  · exact C6_best_effort.2.1 (initLoadState netC6) "foo.weight"
      { shape := [1], data := [5] } "foo.weight" (by decide) (by decide)
  · exact C6_best_effort.2.2.1 (initLoadState netC6) "bar.bias"
      { shape := [3], data := [1, 1, 1] } "bar.bias"
      { shape := [2], data := [0, 0] } (by decide) (by decide) (by decide)

/-! ## Association-list lemmas -/

lemma lookupA_updateA {α : Type} (l : List (String × α)) (k j : String) (v : α) :
    lookupA (updateA l k v) j =
      if j = k then (lookupA l k).map (fun _ => v) else lookupA l j := by
  induction l with
  | nil => by_cases hjk : j = k <;> simp [lookupA, updateA, hjk]
  | cons p t ih =>
    obtain ⟨a, b⟩ := p
    by_cases hak : a = k
    · subst hak
      by_cases hja : j = a
      · subst hja
        simp [lookupA, updateA]
      · have h1 : (a == j) = false := by
          simp only [beq_eq_false_iff_ne, ne_eq]
          exact fun h => hja h.symm
        simp only [updateA, List.map_cons, beq_self_eq_true, if_true]
        simp only [lookupA, h1, beq_self_eq_true, if_true, Bool.false_eq_true, if_false]
        simp only [updateA] at ih
        rw [ih, if_neg hja]
        simp [hja]
    · have hak' : (a == k) = false := by simpa using hak
      by_cases hja : j = a
      · subst hja
        have hjk : ¬ j = k := fun h => hak (h ▸ rfl)
        simp [lookupA, updateA, hak', hjk]
      · have hja' : (a == j) = false := by
          simp only [beq_eq_false_iff_ne, ne_eq]
          exact fun h => hja h.symm
        simp only [updateA, List.map_cons, hak', Bool.false_eq_true, if_false]
        simp only [lookupA, hja', Bool.false_eq_true, if_false]
        simp only [updateA] at ih
        rw [ih]
        simp [hak']

lemma lookupA_append {α : Type} (l1 l2 : List (String × α)) (j : String) :
    lookupA (l1 ++ l2) j =
      match lookupA l1 j with
      | some v => some v
      | none => lookupA l2 j := by
  induction l1 with
  | nil => simp [lookupA]
  | cons p t ih =>
    by_cases h : (p.1 == j) = true
    · simp [lookupA, h]
    · have h' : (p.1 == j) = false := by simpa using h
      simp [lookupA, h', ih]

lemma lookupA_setA {α : Type} (l : List (String × α)) (k j : String) (v : α) :
    lookupA (setA l k v) j = if j = k then some v else lookupA l j := by
  unfold setA
  by_cases hp : (lookupA l k).isSome = true
  · rw [if_pos hp, lookupA_updateA]
    by_cases hjk : j = k
    · subst hjk
      rw [if_pos rfl, if_pos rfl]
      obtain ⟨w, hw⟩ := Option.isSome_iff_exists.mp hp
      rw [hw]
      rfl
    · rw [if_neg hjk, if_neg hjk]
  · rw [if_neg hp, lookupA_append]
    by_cases hjk : j = k
    · subst hjk
      have hnone : lookupA l j = none := by
        cases h : lookupA l j
        · rfl
        · rw [h] at hp; simp at hp
      rw [hnone, if_pos rfl]
      simp [lookupA]
    · have hkj : (k == j) = false := by
        simp only [beq_eq_false_iff_ne, ne_eq]
        exact fun h => hjk h.symm
      cases h : lookupA l j
      · simp [lookupA, hkj, if_neg hjk]
      · simp [if_neg hjk]

lemma updateA_map_fst {α : Type} (l : List (String × α)) (k : String) (v : α) :
    (updateA l k v).map Prod.fst = l.map Prod.fst := by
  induction l with
  | nil => rfl
  | cons p t ih =>
    simp only [updateA, List.map_cons] at ih ⊢
    have hh : (if (p.1 == k) = true then (k, v) else p).1 = p.1 := by
      by_cases h : (p.1 == k) = true
      · have hpk : p.1 = k := by simpa using h
        rw [if_pos h]
        exact hpk.symm
      · rw [if_neg h]
    rw [hh, ih]

lemma addKey_mem (l : List String) (k : String) : k ∈ addKey l k := by
  unfold addKey
  by_cases h : l.contains k
  · rw [if_pos h]
    simpa using h
  · rw [if_neg h]
    simp

lemma addKey_mem_of_mem (l : List String) (k j : String) (h : j ∈ l) : j ∈ addKey l k := by
  unfold addKey
  split
  · exact h
  · simp [h]

lemma addKey_mem_elim (l : List String) (k j : String) (h : j ∈ addKey l k) :
    j ∈ l ∨ j = k := by
  unfold addKey at h
  split at h
  · exact Or.inl h
  · rcases List.mem_append.mp h with h1 | h1
    · exact Or.inl h1
    · simp at h1
      exact Or.inr h1

/-! ## The shape guard of the copy -/

/-- Whatever tensor the per-key loop stores passed the shape-equality check
of converter lines 504-513. -/
lemma processTensor_store_shape (k : String) (v : Tensor) (tgtShape : List Nat)
    (t : Tensor) (h : processTensor k v tgtShape = ProcResult.store t) :
    t.shape = tgtShape := by
  unfold processTensor at h
  dsimp only at h
  split at h
  · cases h
  · split at h
    · rename_i hbeq
      injection h with h1
      subst h1
      exact beq_iff_eq.mp hbeq
    · cases h

/-- A step on a renamed key whose processed tensor mismatches leaves the
model parameters untouched and records the Paddle key. -/
lemma loadStep_mismatch_frame (s : LoadState) (pk : String) (v : Tensor)
    (k : String) (tgt : Tensor)
    (hrn : renameKey pk = RenameOutcome.key k)
    (hget : snapGet s k = some tgt)
    (hmis : processTensor k v tgt.shape = ProcResult.mismatch) :
    (loadStep s (pk, v)).net = s.net ∧
    (loadStep s (pk, v)).unmatched = s.unmatched ++ [(pk, UnmatchReason.shapeMismatch)] := by
  have hget1 : snapGet { s with seen := s.seen + 1 } k = some tgt := hget
  unfold loadStep
  dsimp only
  simp only [hrn, hget1, hmis]
  exact ⟨by trivial, by trivial⟩

/-- One loop iteration preserves the shape of every model parameter: the
only write into the parameters is the `copy_` guarded by the shape check. -/
lemma loadStep_net_shape (s : LoadState) (item : String × Tensor) (j : String)
    (t0 : Tensor) (h : lookupA s.net j = some t0) :
    ∃ t1, lookupA (loadStep s item).net j = some t1 ∧ t1.shape = t0.shape := by
  unfold loadStep
  split
  · exact ⟨t0, h, rfl⟩
  · exact ⟨t0, h, rfl⟩
  · dsimp only
    rename_i k hrn
    cases hget : snapGet { s with seen := s.seen + 1 } k with
    | none => exact ⟨t0, h, rfl⟩
    | some tgt =>
      dsimp only
      cases hproc : processTensor k item.2 tgt.shape with
      | exn => exact ⟨t0, h, rfl⟩
      | mismatch => exact ⟨t0, h, rfl⟩
      | store t =>
        dsimp only
        unfold snapWrite
        cases hsnap : lookupA ({ s with seen := s.seen + 1 } : LoadState).snap k with
        | none => exact ⟨t0, h, rfl⟩
        | some entry =>
          cases entry with
          | repl tr => exact ⟨t0, h, rfl⟩
          | aliasE =>
            have htgt : lookupA s.net k = some tgt := by
              unfold snapGet at hget
              rw [hsnap] at hget
              exact hget
            have hshape : t.shape = tgt.shape := processTensor_store_shape _ _ _ _ hproc
            dsimp only
            rw [lookupA_updateA]
            by_cases hjk : j = k
            · subst hjk
              rw [if_pos rfl, h]
              refine ⟨t, rfl, ?_⟩
              rw [hshape]
              rw [h] at htgt
              injection htgt with he
              rw [he]
            · rw [if_neg hjk]
              exact ⟨t0, h, rfl⟩

/-- The whole loop preserves the shape of every model parameter. -/
lemma load_net_shape (sd : StateDict) : ∀ (s : LoadState) (j : String) (t0 : Tensor),
    lookupA s.net j = some t0 →
    ∃ t1, lookupA (load_paddle_weights sd s).net j = some t1 ∧ t1.shape = t0.shape := by
  induction sd with
  | nil => intro s j t0 h; exact ⟨t0, h, rfl⟩
  | cons p t ih =>
    intro s j t0 h
    obtain ⟨t1, h1, hs1⟩ := loadStep_net_shape s p j t0 h
    obtain ⟨t2, h2, hs2⟩ := ih (loadStep s p) j t1 h1
    exact ⟨t2, h2, hs2.trans hs1⟩

/-! ## Claim C2 -/

/-- Model parameters for the C2 counterexample: the cross-attention kv
projection weight exists with shape `[2, 3]`. -/
def netC2 : StateDict :=
  [("head.nrtr_head_transformer.decoder.0.cross_attn.kv_proj.weight",
    { shape := [2, 3], data := [0, 0, 0, 0, 0, 0] })]

/-- A Paddle checkpoint with a gtc-decoder cross-attention kv weight of the
incompatible shape `[5]`. -/
def sdC2 : StateDict :=
  [("head.gtc_head.decoder.layers.0.cross_attn.kv.weight",
    { shape := [5], data := [1, 1, 1, 1, 1] })]

/-- Counterexample to claim C2 as stated: the kv weight's renamed PyTorch
key exists in the model and the source shape `[5]` differs from the target
shape `[2, 3]`, yet `load_paddle_weights` performs no shape check on this
key (converter lines 355-363 assign it into the state-dict snapshot
directly), records it as loaded, and leaves the unmatched list empty. -/
theorem C2_counterexample :
    renameKey "head.gtc_head.decoder.layers.0.cross_attn.kv.weight" =
      RenameOutcome.kvAssign
        "head.nrtr_head_transformer.decoder.0.cross_attn.kv_proj.weight" ∧
    lookupA netC2 "head.nrtr_head_transformer.decoder.0.cross_attn.kv_proj.weight" =
      some { shape := [2, 3], data := [0, 0, 0, 0, 0, 0] } ∧
    ([5] : List Nat) ≠ [2, 3] ∧
    (load_paddle_weights sdC2 (initLoadState netC2)).unmatched = [] ∧
    (load_paddle_weights sdC2 (initLoadState netC2)).loaded =
      ["head.nrtr_head_transformer.decoder.0.cross_attn.kv_proj.weight"] := by
  refine ⟨by decide, by decide, by decide, by decide, by decide⟩

/-- Claim C2 amended: outside the raw kv assignments, the copy is shape
guarded.  (i) Every tensor the loop stores has exactly the target's shape;
(ii) a renamed key whose processed tensor mismatches the target shape
modifies no model parameter and is recorded as unmatched; (iii) hence after
loading, every model parameter still has its declared shape.  (The
gtc-decoder cross-attention kv keys are excluded: they are assigned into
the state-dict snapshot without any shape check and recorded as loaded, but
never touch a model parameter.) -/
theorem C2_shape_guarded_copy :
    (∀ (k : String) (v : Tensor) (tgtShape : List Nat) (t : Tensor),
      processTensor k v tgtShape = ProcResult.store t → t.shape = tgtShape) ∧
    (∀ (s : LoadState) (pk : String) (v : Tensor) (k : String) (tgt : Tensor),
      renameKey pk = RenameOutcome.key k → snapGet s k = some tgt →
      processTensor k v tgt.shape = ProcResult.mismatch →
      (loadStep s (pk, v)).net = s.net ∧
      (loadStep s (pk, v)).unmatched = s.unmatched ++ [(pk, UnmatchReason.shapeMismatch)]) ∧
    (∀ (sd net : StateDict) (k : String) (t0 : Tensor),
      lookupA net k = some t0 →
      ∃ t1, lookupA (load_paddle_weights sd (initLoadState net)).net k = some t1 ∧
        t1.shape = t0.shape) :=
  ⟨processTensor_store_shape,
   fun s pk v k tgt hrn hget hmis => loadStep_mismatch_frame s pk v k tgt hrn hget hmis,
   fun sd net k t0 h => load_net_shape sd (initLoadState net) k t0 h⟩

/-- Witness for the amended C2: the stored transpose has the target shape;
a mismatched bias records the key and leaves the parameters alone; after
loading `sdC2` into `netC2` the kv parameter keeps its `[2, 3]` shape. -/
theorem C2_shape_guarded_copy_witness :
    (transpose2 vC4).shape = tgtC4.shape ∧
    (loadStep (initLoadState netC6) ("bar.bias", { shape := [3], data := [1, 1, 1] })).net =
      netC6 ∧
    (∃ t1, lookupA (load_paddle_weights sdC2 (initLoadState netC2)).net
        "head.nrtr_head_transformer.decoder.0.cross_attn.kv_proj.weight" = some t1 ∧
      t1.shape = [2, 3]) :=
  ⟨C2_shape_guarded_copy.1 "head.fc.weight" vC4 tgtC4.shape (transpose2 vC4) (by decide),
   (C2_shape_guarded_copy.2.1 (initLoadState netC6) "bar.bias"
      { shape := [3], data := [1, 1, 1] } "bar.bias"
      { shape := [2], data := [0, 0] } (by decide) (by decide) (by decide)).1,
   C2_shape_guarded_copy.2.2 sdC2 netC2
     "head.nrtr_head_transformer.decoder.0.cross_attn.kv_proj.weight"
     { shape := [2, 3], data := [0, 0, 0, 0, 0, 0] } (by decide)⟩

/-! ## Claim C7 -/

lemma loadStep_loaded_mono (s : LoadState) (item : String × Tensor) (j : String)
    (h : j ∈ s.loaded) : j ∈ (loadStep s item).loaded := by
  unfold loadStep
  split
  · exact h
  · exact addKey_mem_of_mem _ _ _ h
  · dsimp only
    split
    · exact h
    · split
      · exact h
      · exact h
      · unfold snapWrite
        split <;> exact addKey_mem_of_mem _ _ _ h

lemma loadStep_net_frame (s : LoadState) (item : String × Tensor) (j : String) :
    lookupA (loadStep s item).net j = lookupA s.net j ∨ j ∈ (loadStep s item).loaded := by
  unfold loadStep
  split
  · exact Or.inl rfl
  · exact Or.inl rfl
  · dsimp only
    rename_i k hrn
    split
    · exact Or.inl rfl
    · split
      · exact Or.inl rfl
      · exact Or.inl rfl
      · unfold snapWrite
        split
        · dsimp only
          by_cases hjk : j = k
          · subst hjk
            exact Or.inr (addKey_mem _ _)
          · left
            rw [lookupA_updateA, if_neg hjk]
        · exact Or.inl rfl
        · exact Or.inl rfl

lemma load_loaded_mono (sd : StateDict) : ∀ (s : LoadState) (j : String),
    j ∈ s.loaded → j ∈ (load_paddle_weights sd s).loaded := by
  induction sd with
  | nil => intro s j h; exact h
  | cons p t ih =>
    intro s j h
    exact ih (loadStep s p) j (loadStep_loaded_mono s p j h)

lemma load_net_frame (sd : StateDict) : ∀ (s : LoadState) (j : String),
    lookupA (load_paddle_weights sd s).net j = lookupA s.net j ∨
      j ∈ (load_paddle_weights sd s).loaded := by
  induction sd with
  | nil => intro s j; exact Or.inl rfl
  | cons p t ih =>
    intro s j
    rcases loadStep_net_frame s p j with h1 | h1
    · rcases ih (loadStep s p) j with h2 | h2
      · exact Or.inl (h2.trans h1)
      · exact Or.inr h2
    · exact Or.inr (load_loaded_mono t (loadStep s p) j h1)

/-- Claim C7: `load_paddle_weights` modifies only the parameters whose
renamed key was successfully loaded — every model parameter whose name is
not in the loaded-keys set holds, after the call, exactly the value it held
on entry (skipped keys, keys not found in the model, and shape-mismatched
keys included). -/
theorem C7_frame (sd net : StateDict) (j : String)
    (h : j ∉ (load_paddle_weights sd (initLoadState net)).loaded) :
    lookupA (load_paddle_weights sd (initLoadState net)).net j = lookupA net j := by
  rcases load_net_frame sd (initLoadState net) j with h1 | h1
  · exact h1
  · exact absurd h1 h

/-- Model parameters for the C7 witness. -/
def netC7 : StateDict := [("p.weight", { shape := [2], data := [1, 2] })]

/-- A checkpoint whose only key the rename rules skip outright. -/
def sdC7 : StateDict :=
  [("head.gtc_head.tgt_word_prj.weight", { shape := [2, 2], data := [9, 9, 9, 9] })]

/-- Witness for C7: after loading a checkpoint whose only key is skipped,
the untouched parameter still holds its original value. -/
theorem C7_frame_witness :
    lookupA (load_paddle_weights sdC7 (initLoadState netC7)).net "p.weight" =
      some { shape := [2], data := [1, 2] } :=
  (C7_frame sdC7 netC7 "p.weight" (by decide)).trans (by decide)

/-! ## Claim C3: two-run comparison -/

/-- Two parameter dicts with the same keys in the same order and the same
shape at every position — exactly what two runs of the random
`_initialize_weights` (base_model.py lines 163-186) can differ by: the
module graph (keys and shapes) is determined by the config, while
Kaiming/normal initialization draws fresh values for the weights. -/
def alignedNets (n1 n2 : StateDict) : Prop :=
  n1.map Prod.fst = n2.map Prod.fst ∧
  n1.map (fun p => p.2.shape) = n2.map (fun p => p.2.shape)

lemma aligned_lookup_shape : ∀ (n1 n2 : StateDict), alignedNets n1 n2 →
    ∀ k, (lookupA n1 k).map Tensor.shape = (lookupA n2 k).map Tensor.shape := by
  intro n1
  induction n1 with
  | nil =>
    intro n2 h k
    have h2 : n2 = [] := List.map_eq_nil_iff.mp h.1.symm
    subst h2
    rfl
  | cons p t ih =>
    intro n2 h k
    cases n2 with
    | nil => exact absurd h.1 (by simp)
    | cons q t2 =>
      have hfst := h.1
      have hshp := h.2
      simp only [List.map_cons, List.cons.injEq] at hfst hshp
      unfold lookupA
      by_cases hk : (p.1 == k) = true
      · have hk2 : (q.1 == k) = true := by rw [← hfst.1]; exact hk
        simp [hk, hk2, hshp.1]
      · have h2 : (p.1 == k) = false := by simpa using hk
        have h3 : (q.1 == k) = false := by rw [← hfst.1]; exact h2
        simp only [h2, h3, Bool.false_eq_true, if_false]
        exact ih t2 ⟨hfst.2, hshp.2⟩ k

lemma updateA_map_shape (k : String) (v : Tensor) :
    ∀ (n1 n2 : StateDict), n1.map Prod.fst = n2.map Prod.fst →
    n1.map (fun p => p.2.shape) = n2.map (fun p => p.2.shape) →
    (updateA n1 k v).map (fun p => p.2.shape) =
      (updateA n2 k v).map (fun p => p.2.shape) := by
  intro n1
  induction n1 with
  | nil =>
    intro n2 hf _
    have h2 : n2 = [] := List.map_eq_nil_iff.mp hf.symm
    subst h2
    rfl
  | cons p t ih =>
    intro n2 hf hs
    cases n2 with
    | nil => exact absurd hf (by simp)
    | cons q t2 =>
      simp only [List.map_cons, List.cons.injEq] at hf hs
      simp only [updateA, List.map_cons, List.cons.injEq]
      constructor
      · by_cases hk : (p.1 == k) = true
        · have hk2 : (q.1 == k) = true := by rw [← hf.1]; exact hk
          rw [if_pos hk, if_pos hk2]
        · have hk2 : ¬ (q.1 == k) = true := by rw [← hf.1]; exact hk
          rw [if_neg hk, if_neg hk2]
          exact hs.1
      · have := ih t2 hf.2 hs.2
        simpa [updateA] using this

lemma aligned_updateA (n1 n2 : StateDict) (k : String) (v : Tensor)
    (h : alignedNets n1 n2) : alignedNets (updateA n1 k v) (updateA n2 k v) :=
  ⟨by rw [updateA_map_fst, updateA_map_fst]; exact h.1,
   updateA_map_shape k v n1 n2 h.1 h.2⟩

/-- `loadStep` written with the intermediate state eliminated. -/
lemma loadStep_eq (s : LoadState) (item : String × Tensor) :
    loadStep s item =
      match renameKey item.1 with
      | RenameOutcome.skip => { s with seen := s.seen + 1 }
      | RenameOutcome.kvAssign k =>
        { s with
          seen := s.seen + 1
          snap := setA s.snap k (DictEntry.repl item.2)
          loaded := addKey s.loaded k }
      | RenameOutcome.key k =>
        match snapGet s k with
        | none =>
          { s with
            seen := s.seen + 1
            unmatched := s.unmatched ++ [(item.1, UnmatchReason.notFound)] }
        | some tgt =>
          match processTensor k item.2 tgt.shape with
          | ProcResult.exn =>
            { s with
              seen := s.seen + 1
              unmatched := s.unmatched ++ [(item.1, UnmatchReason.runtimeError)] }
          | ProcResult.mismatch =>
            { s with
              seen := s.seen + 1
              unmatched := s.unmatched ++ [(item.1, UnmatchReason.shapeMismatch)] }
          | ProcResult.store t =>
            match lookupA s.snap k with
            | some DictEntry.aliasE =>
              { s with
                seen := s.seen + 1
                net := updateA s.net k t
                loaded := addKey s.loaded k }
            | some (DictEntry.repl _) =>
              { s with
                seen := s.seen + 1
                snap := updateA s.snap k (DictEntry.repl t)
                loaded := addKey s.loaded k }
            | none => { s with seen := s.seen + 1, loaded := addKey s.loaded k } := by
  unfold loadStep snapWrite
  dsimp only
  cases hrn : renameKey item.1 with
  | skip => rfl
  | kvAssign k => rfl
  | key k =>
    dsimp only
    have e1 : snapGet { s with seen := s.seen + 1 } k = snapGet s k := rfl
    rw [e1]
    cases hget : snapGet s k with
    | none => rfl
    | some tgt =>
      dsimp only
      cases hproc : processTensor k item.2 tgt.shape with
      | exn => rfl
      | mismatch => rfl
      | store t =>
        dsimp only
        have e2 : lookupA ({ s with seen := s.seen + 1 } : LoadState).snap k =
            lookupA s.snap k := rfl
        rw [e2]
        cases hsn : lookupA s.snap k with
        | none => rfl
        | some entry => cases entry <;> rfl

/-- With equal snapshots and aligned nets, the two runs see targets of equal
shape (or both see none): the loop's control flow reads only shapes. -/
lemma snapGet_shape_eq (s1 s2 : LoadState) (hsnap : s1.snap = s2.snap)
    (hal : alignedNets s1.net s2.net) (k : String) :
    (snapGet s1 k).map Tensor.shape = (snapGet s2 k).map Tensor.shape := by
  unfold snapGet
  rw [hsnap]
  cases lookupA s2.snap k with
  | none => rfl
  | some entry =>
    cases entry with
    | aliasE => exact aligned_lookup_shape s1.net s2.net hal k
    | repl t => rfl

/-- The simulation invariant between the two runs: everything except the
parameter values coincides, and the values coincide at every loaded key
whose snapshot entry still aliases a parameter (exactly the keys written by
the shape-guarded `copy_`). -/
def simInv (s1 s2 : LoadState) : Prop :=
  alignedNets s1.net s2.net ∧
  s1.snap = s2.snap ∧ s1.loaded = s2.loaded ∧ s1.unmatched = s2.unmatched ∧
  s1.seen = s2.seen ∧
  (∀ k, k ∈ s1.loaded → lookupA s1.snap k = some DictEntry.aliasE →
    lookupA s1.net k = lookupA s2.net k)

lemma simInv_step (s1 s2 : LoadState) (item : String × Tensor)
    (h : simInv s1 s2) : simInv (loadStep s1 item) (loadStep s2 item) := by
  obtain ⟨hal, hsnap, hload, hunm, hseen, hvals⟩ := h
  rw [loadStep_eq s1 item, loadStep_eq s2 item]
  cases hrn : renameKey item.1 with
  | skip =>
    exact ⟨hal, hsnap, hload, hunm, by rw [hseen], fun k hk he => hvals k hk he⟩
  | kvAssign k =>
    refine ⟨hal, by rw [hsnap], by rw [hload], hunm, by rw [hseen], ?_⟩
    intro j hj hje
    dsimp only at hj hje
    rw [lookupA_setA] at hje
    by_cases hjk : j = k
    · rw [if_pos hjk] at hje
      cases hje
    · rw [if_neg hjk] at hje
      rcases addKey_mem_elim _ _ _ hj with hj1 | hj1
      · exact hvals j hj1 hje
      · exact absurd hj1 hjk
  | key k =>
    dsimp only
    have hshapes := snapGet_shape_eq s1 s2 hsnap hal k
    cases hg1 : snapGet s1 k with
    | none =>
      have hg2 : snapGet s2 k = none := by
        rw [hg1] at hshapes
        exact Option.map_eq_none.mp hshapes.symm
      rw [hg2]
      exact ⟨hal, hsnap, hload, by rw [hunm], by rw [hseen], fun j hj hje => hvals j hj hje⟩
    | some tgt1 =>
      rw [hg1] at hshapes
      cases hg2 : snapGet s2 k with
      | none =>
        rw [hg2] at hshapes
        cases hshapes
      | some tgt2 =>
        rw [hg2] at hshapes
        have hts : tgt1.shape = tgt2.shape := by
          simpa using hshapes
        dsimp only
        rw [← hts]
        cases hproc : processTensor k item.2 tgt1.shape with
        | exn =>
          exact ⟨hal, hsnap, hload, by rw [hunm], by rw [hseen],
            fun j hj hje => hvals j hj hje⟩
        | mismatch =>
          exact ⟨hal, hsnap, hload, by rw [hunm], by rw [hseen],
            fun j hj hje => hvals j hj hje⟩
        | store t =>
          dsimp only
          rw [← hsnap]
          cases hsn : lookupA s1.snap k with
          | none =>
            dsimp only
            refine ⟨hal, rfl, by rw [hload], hunm, by rw [hseen], ?_⟩
            intro j hj hje
            dsimp only at hj hje
            rcases addKey_mem_elim _ _ _ hj with hj1 | hj1
            · exact hvals j hj1 hje
            · subst hj1
              rw [hsn] at hje
              cases hje
          | some entry =>
            cases entry with
            | aliasE =>
              dsimp only
              refine ⟨aligned_updateA s1.net s2.net k t hal, rfl, by rw [hload],
                hunm, by rw [hseen], ?_⟩
              intro j hj hje
              dsimp only at hj hje ⊢
              by_cases hjk : j = k
              · subst hjk
                have h1 : lookupA s1.net j = some tgt1 := by
                  unfold snapGet at hg1
                  rw [hsn] at hg1
                  exact hg1
                have h2 : lookupA s2.net j = some tgt2 := by
                  unfold snapGet at hg2
                  rw [← hsnap, hsn] at hg2
                  exact hg2
                rw [lookupA_updateA, lookupA_updateA, if_pos rfl, if_pos rfl, h1, h2]
                rfl
              · rw [lookupA_updateA, lookupA_updateA, if_neg hjk, if_neg hjk]
                rcases addKey_mem_elim _ _ _ hj with hj1 | hj1
                · exact hvals j hj1 hje
                · exact absurd hj1 hjk
            | repl tr =>
              dsimp only
              refine ⟨hal, rfl, by rw [hload], hunm, by rw [hseen], ?_⟩
              intro j hj hje
              dsimp only at hj hje ⊢
              rw [lookupA_updateA] at hje
              by_cases hjk : j = k
              · rw [if_pos hjk] at hje
                rw [hsn] at hje
                cases hje
              · rw [if_neg hjk] at hje
                rcases addKey_mem_elim _ _ _ hj with hj1 | hj1
                · exact hvals j hj1 hje
                · exact absurd hj1 hjk

lemma simInv_load (sd : StateDict) : ∀ s1 s2 : LoadState, simInv s1 s2 →
    simInv (load_paddle_weights sd s1) (load_paddle_weights sd s2) := by
  induction sd with
  | nil => intro s1 s2 h; exact h
  | cons p t ih =>
    intro s1 s2 h
    exact ih (loadStep s1 p) (loadStep s2 p) (simInv_step s1 s2 p h)

lemma simInv_init (n1 n2 : StateDict) (h : alignedNets n1 n2) :
    simInv (initLoadState n1) (initLoadState n2) := by
  refine ⟨h, ?_, rfl, rfl, rfl, ?_⟩
  · show n1.map (fun p => (p.1, DictEntry.aliasE)) = n2.map (fun p => (p.1, DictEntry.aliasE))
    have e1 : (fun p : String × Tensor => (p.1, DictEntry.aliasE)) =
        (fun k : String => (k, DictEntry.aliasE)) ∘ Prod.fst := rfl
    rw [e1, ← List.map_map, ← List.map_map, h.1]
  · intro j hj _
    cases hj

/-- A checkpoint whose only key (`head.gtc_head.tgt_word_prj.weight`) the
rename rules skip outright (converter lines 273-276), so the matching model
parameter keeps whatever value random initialization gave it. -/
def sdC3 : StateDict :=
  [("head.gtc_head.tgt_word_prj.weight", { shape := [2, 2], data := [1, 2, 3, 4] })]

/-- The model parameters as one run of `_initialize_weights` could draw
them (a Linear weight, normal-initialized). -/
def netC3a : StateDict :=
  [("head.nrtr_head_transformer.tgt_word_prj.weight",
    { shape := [2, 2], data := [0, 0, 0, 0] })]

/-- The same module graph as another run could draw it: same key, same
shape, different random values. -/
def netC3b : StateDict :=
  [("head.nrtr_head_transformer.tgt_word_prj.weight",
    { shape := [2, 2], data := [5, 0, 0, 0] })]

/-- Counterexample to claim C3 as stated: two runs that differ only in the
random initialization of a parameter the converter never overwrites
produce saved checkpoints with identical shapes but different tensor
values — the end-to-end conversion is not value-deterministic. -/
theorem C3_counterexample :
    alignedNets netC3a netC3b ∧
    savedCheckpoint sdC3 netC3a ≠ savedCheckpoint sdC3 netC3b ∧
    (savedCheckpoint sdC3 netC3a).map (fun p => p.2.shape) =
      (savedCheckpoint sdC3 netC3b).map (fun p => p.2.shape) := by
  refine ⟨⟨by decide, by decide⟩, by decide, by decide⟩

/-- Claim C3 amended: two runs of the conversion on the same checkpoint and
config — whose built models therefore have the same parameter names and
shapes but possibly different randomly initialized values — produce saved
checkpoints that are shape-identical, load the same set of keys, report the
same unmatched keys, and agree on the value of every parameter that
received a shape-guarded copy; full value-identity fails only on parameters
never overwritten (and on snapshot entries rebound by the raw kv
assignment), which keep their run-specific random initialization. -/
theorem C3_two_run_determinism (sd n1 n2 : StateDict) (h : alignedNets n1 n2) :
    alignedNets (savedCheckpoint sd n1) (savedCheckpoint sd n2) ∧
    (load_paddle_weights sd (initLoadState n1)).loaded =
      (load_paddle_weights sd (initLoadState n2)).loaded ∧
    (load_paddle_weights sd (initLoadState n1)).unmatched =
      (load_paddle_weights sd (initLoadState n2)).unmatched ∧
    (∀ k, k ∈ (load_paddle_weights sd (initLoadState n1)).loaded →
      lookupA (load_paddle_weights sd (initLoadState n1)).snap k =
        some DictEntry.aliasE →
      lookupA (savedCheckpoint sd n1) k = lookupA (savedCheckpoint sd n2) k) := by
  have hsim := simInv_load sd (initLoadState n1) (initLoadState n2) (simInv_init n1 n2 h)
  exact ⟨hsim.1, hsim.2.2.1, hsim.2.2.2.1, hsim.2.2.2.2.2⟩

/-- Witness for the amended C3 at the concrete pair of initializations. -/
theorem C3_two_run_determinism_witness :
    alignedNets (savedCheckpoint sdC3 netC3a) (savedCheckpoint sdC3 netC3b) ∧
    (load_paddle_weights sdC3 (initLoadState netC3a)).loaded =
      (load_paddle_weights sdC3 (initLoadState netC3b)).loaded :=
  ⟨(C3_two_run_determinism sdC3 netC3a netC3b ⟨by decide, by decide⟩).1,
   (C3_two_run_determinism sdC3 netC3a netC3b ⟨by decide, by decide⟩).2.1⟩
